import Mathlib

/-!
Shallow embedding of the library-management backend (LMS repository).

The embedding models the MongoDB collections as Lean lists of documents and
each Express request handler as a pure function from a state (plus the request
parameters and the current time, in epoch milliseconds) to an operation result
carrying the HTTP status code, the optional error message and the successor
state.  MongoDB updateOne and findOneAndUpdate act on the first matching
document of the collection, which the list functions below reproduce.  ISO
date strings are represented by their epoch-millisecond value, so the source
comparison (new Date(x) < now) becomes numeric comparison.  Generated string
identifiers are taken as explicit parameters, since Date.now plus Math.random
is nondeterministic.
-/

namespace LMS

/-- Update of the first element of a list satisfying a predicate; the model of
MongoDB updateOne on a collection. -/
def updateFirst (p : α → Bool) (f : α → α) : List α → List α
  | [] => []
  | a :: as => if p a then f a :: as else a :: updateFirst p f as

/-- Removal of the first element of a list satisfying a predicate; the model of
MongoDB deleteOne. -/
def deleteFirst (p : α → Bool) : List α → List α
  | [] => []
  | a :: as => if p a then as else a :: deleteFirst p as

/-- Model of MongoDB findOneAndUpdate with returnDocument after: locate the
first matching document, update it in place and return the updated document;
when no document matches, return none and leave the collection unchanged. -/
def findOneAndUpdate (p : α → Bool) (f : α → α) (l : List α) :
    Option α × List α :=
  match l.find? p with
  | none => (none, l)
  | some a => (some (f a), updateFirst p f l)

/-- Boolean test of whether the first list occurs as a contiguous sublist of
the second. -/
def isSubList [BEq α] : List α → List α → Bool
  | pat, [] => pat.isEmpty
  | pat, c :: cs => pat.isPrefixOf (c :: cs) || isSubList pat cs

/-- Case-insensitive substring containment; the model of the MongoDB regex
match with the i option used on notification messages in deleteUser. -/
def containsSub (pat txt : String) : Bool :=
  isSubList pat.toLower.toList txt.toLower.toList

/-- Model of the UserDocument interface of the repository. -/
structure UserDocument where
  id : String
  name : String
  email : String
  role : String
  status : String
deriving Repr, DecidableEq

/-- Model of the BookDocument interface, restricted to the fields the loan and
notification handlers read. -/
structure BookDocument where
  id : String
  title : String
  author : String
  isActive : Bool
deriving Repr, DecidableEq

/-- Model of the BookCopyDocument interface. -/
structure BookCopyDocument where
  id : String
  bookId : String
  copyCode : String
  status : String
  createdAt : Nat
  updatedAt : Nat
deriving Repr, DecidableEq

/-- Model of the LoanDocument interface.  returnDate is nullable and the
reminderCount and lastReminderAt fields are optional, exactly as in the
TypeScript declaration. -/
structure LoanDocument where
  id : String
  userId : String
  bookId : String
  copyId : String
  borrowDate : Nat
  dueDate : Nat
  returnDate : Option Nat
  status : String
  reminderSent : Bool
  reminderCount : Option Nat
  lastReminderAt : Option Nat
  createdAt : Nat
  updatedAt : Nat
deriving Repr, DecidableEq

/-- Model of notification documents as built by the handlers; loan-related
fields are optional because password-reset notifications omit them. -/
structure NotificationDocument where
  id : String
  userId : String
  loanId : Option String
  bookId : Option String
  type : String
  title : String
  message : String
  bookTitle : Option String
  bookAuthor : Option String
  dueDate : Option Nat
  isRead : Bool
  createdAt : Nat
deriving Repr, DecidableEq

/-- The database state: one list per MongoDB collection. -/
structure LibraryState where
  users : List UserDocument
  books : List BookDocument
  bookCopies : List BookCopyDocument
  loans : List LoanDocument
  notifications : List NotificationDocument
deriving Repr, DecidableEq

/-- Outcome of one request handler: HTTP status code, optional JSON error
message and the database state after the handler ran. -/
structure OpResult where
  httpStatus : Nat
  errMessage : Option String
  state : LibraryState
deriving Repr, DecidableEq

/-- Model of enrichLoansWithStatus from loans.controller.ts: a loan with a set
returnDate is passed through unchanged, otherwise the status field of the
returned record is recomputed from the due date and the current time. -/
def enrichLoansWithStatus (loans : List LoanDocument) (now : Nat) :
    List LoanDocument :=
  loans.map (fun loan =>
    if loan.returnDate.isSome then loan
    else if loan.dueDate < now then { loan with status := "OVERDUE" }
    else { loan with status := "BORROWED" })

/-- Model of the getAdminLoans read handler: it aggregates and enriches the
loan collection and performs no database write, so the state component of the
result is the input state. -/
def getAdminLoans (now : Nat) (s : LibraryState) :
    List LoanDocument × LibraryState :=
  (enrichLoansWithStatus s.loans now, s)

/-- Model of the loan counting in getDashboardStats: unreturned loans are
split into overdue and active by comparing the due date with the current time;
the handler performs no database write. -/
def getDashboardStats (now : Nat) (s : LibraryState) :
    (Nat × Nat) × LibraryState :=
  (s.loans.foldl (fun acc loan =>
      match loan.returnDate with
      | some _ => acc
      | none =>
        if loan.dueDate < now then (acc.1, acc.2 + 1) else (acc.1 + 1, acc.2))
    (0, 0), s)

/-- Model of createLoan from loans.controller.ts.  The generated loan and
notification identifiers are parameters. -/
def createLoan (userId bookId : String) (dueDate now : Nat)
    (newLoanId newNotificationId : String) (s : LibraryState) : OpResult :=
  match findOneAndUpdate
      (fun c => c.bookId == bookId && c.status == "AVAILABLE")
      (fun c => { c with status := "BORROWED", updatedAt := now })
      s.bookCopies with
  | (none, _) =>
    { httpStatus := 400
      errMessage := some "No copies available for this book"
      state := s }
  | (some availableCopy, copiesAfter) =>
    let book := s.books.find? (fun b => b.id == bookId)
    let newLoan : LoanDocument :=
      { id := newLoanId
        userId := userId
        bookId := bookId
        copyId := availableCopy.id
        borrowDate := now
        dueDate := dueDate
        returnDate := none
        status := "BORROWED"
        reminderSent := false
        reminderCount := none
        lastReminderAt := none
        createdAt := now
        updatedAt := now }
    let notificationsAfter :=
      match book with
      | none => s.notifications
      | some b =>
        s.notifications ++
          [{ id := newNotificationId
             userId := userId
             loanId := some newLoanId
             bookId := some bookId
             type := "LOAN_CREATED"
             title := "Book Borrowed Successfully"
             message := "You have borrowed " ++ b.title ++ " by " ++ b.author
             bookTitle := some b.title
             bookAuthor := some b.author
             dueDate := some dueDate
             isRead := false
             createdAt := now }]
    { httpStatus := 201
      errMessage := none
      state := { s with
        bookCopies := copiesAfter
        loans := s.loans ++ [newLoan]
        notifications := notificationsAfter } }

/-- Model of returnLoan from loans.controller.ts. -/
def returnLoan (id : String) (now : Nat) (s : LibraryState) : OpResult :=
  match s.loans.find? (fun l => l.id == id) with
  | none =>
    { httpStatus := 404, errMessage := some "Loan not found", state := s }
  | some loan =>
    if loan.returnDate ≠ none then
      { httpStatus := 400
        errMessage := some "Loan already returned"
        state := s }
    else
      { httpStatus := 204
        errMessage := none
        state := { s with
          loans := updateFirst (fun l => l.id == id)
            (fun l => { l with
              returnDate := some now
              status := "RETURNED"
              updatedAt := now }) s.loans
          bookCopies := updateFirst (fun c => c.id == loan.copyId)
            (fun c => { c with status := "AVAILABLE", updatedAt := now })
            s.bookCopies } }

/-- Model of sendOverdueReminder from loans.controller.ts.  The generated
notification identifier is a parameter.  The reminder write sets reminderSent,
reminderCount, lastReminderAt and updatedAt on the loan; it does not touch the
status field, mirroring the source updateOne. -/
def sendOverdueReminder (id : String) (now : Nat) (newNotificationId : String)
    (s : LibraryState) : OpResult :=
  match s.loans.find? (fun l => l.id == id) with
  | none =>
    { httpStatus := 404, errMessage := some "Loan not found", state := s }
  | some loan =>
    if loan.returnDate = none ∧ loan.dueDate < now then
      match s.users.find? (fun u => u.id == loan.userId),
            s.books.find? (fun b => b.id == loan.bookId) with
      | some _u, some book =>
        let reminder : NotificationDocument :=
          { id := newNotificationId
            userId := loan.userId
            loanId := some loan.id
            bookId := some loan.bookId
            type := "OVERDUE_REMINDER"
            title := "Book Return Reminder"
            message := "Please return " ++ book.title ++ " by " ++ book.author
            bookTitle := some book.title
            bookAuthor := some book.author
            dueDate := some loan.dueDate
            isRead := false
            createdAt := now }
        { httpStatus := 204
          errMessage := none
          state := { s with
            notifications := s.notifications ++ [reminder]
            loans := updateFirst (fun l => l.id == id)
              (fun l => { l with
                reminderSent := true
                reminderCount := some (loan.reminderCount.getD 0 + 1)
                lastReminderAt := some now
                updatedAt := now }) s.loans } }
      | _, _ =>
        { httpStatus := 404
          errMessage := some "User or book not found"
          state := s }
    else
      { httpStatus := 400
        errMessage := some "Only overdue loans can receive reminders"
        state := s }

/-- Model of the copy-freeing loop of deleteUser: for each collected loan, the
first copy whose identifier equals the copyId of the loan is set AVAILABLE. -/
def freeCopies (now : Nat) :
    List LoanDocument → List BookCopyDocument → List BookCopyDocument
  | [], cs => cs
  | l :: ls, cs =>
    freeCopies now ls
      (updateFirst (fun c => c.id == l.copyId)
        (fun c => { c with status := "AVAILABLE", updatedAt := now }) cs)

/-- Model of deleteUser from the users controller: after the guard checks it
frees the copies of the loans of the user whose stored status is BORROWED or
OVERDUE, deletes the loans of the user, the notifications addressed to the
user, the password-reset notifications mentioning the email of the user, and
finally the user document. -/
def deleteUser (id requesterId requesterRole : String) (now : Nat)
    (s : LibraryState) : OpResult :=
  match s.users.find? (fun u => u.id == id) with
  | none =>
    { httpStatus := 404, errMessage := some "User not found", state := s }
  | some targetUser =>
    if targetUser.id == requesterId then
      { httpStatus := 400
        errMessage := some "You cannot delete your own account"
        state := s }
    else if targetUser.role == "ADMIN" && requesterRole != "ADMIN" then
      { httpStatus := 403
        errMessage := some "Only administrators can remove another admin"
        state := s }
    else if targetUser.role == "STAFF" && requesterRole != "ADMIN" then
      { httpStatus := 403
        errMessage := some "Only administrators can remove staff members"
        state := s }
    else
      let userLoans := s.loans.filter (fun l =>
        l.userId == id && (l.status == "BORROWED" || l.status == "OVERDUE"))
      { httpStatus := 204
        errMessage := none
        state :=
          { users := deleteFirst (fun u => u.id == id) s.users
            books := s.books
            bookCopies := freeCopies now userLoans s.bookCopies
            loans := s.loans.filter (fun l => !(l.userId == id))
            notifications :=
              (s.notifications.filter (fun n => !(n.userId == id))).filter
                (fun n => !(n.type == "PASSWORD_RESET_REQUEST" &&
                            containsSub targetUser.email n.message)) } }

/-- Model of markAsRead from notifications.controller.ts: updateOne on the
first notification matching both the identifier and the requesting user,
setting isRead to true. -/
def markAsRead (id requesterId : String) (s : LibraryState) : OpResult :=
  { httpStatus := 204
    errMessage := none
    state := { s with
      notifications := updateFirst
        (fun n => n.id == id && n.userId == requesterId)
        (fun n => { n with isRead := true }) s.notifications } }

/-- Model of markAllAsRead from notifications.controller.ts: updateMany on the
unread notifications of the requesting user, setting isRead to true. -/
def markAllAsRead (requesterId : String) (s : LibraryState) : OpResult :=
  { httpStatus := 204
    errMessage := none
    state := { s with
      notifications := s.notifications.map (fun n =>
        if n.userId == requesterId && n.isRead == false then
          { n with isRead := true }
        else n) } }

/-- Predicate of an active loan on a given copy: returnDate null and copyId
equal to the given identifier. -/
def activeOn (x : String) (l : LoanDocument) : Bool :=
  l.returnDate.isNone && l.copyId == x

/-- Initial states for the loan-operation reachability relation: the loan
collection is empty and the copy identifiers are pairwise distinct, which
MongoDB guarantees through the unique index on the id field. -/
def InitialState (s : LibraryState) : Prop :=
  s.loans = [] ∧ (s.bookCopies.map BookCopyDocument.id).Nodup

/-- One step of the loan subsystem: a createLoan, returnLoan or deleteUser
request with arbitrary parameters. -/
inductive Step : LibraryState → LibraryState → Prop where
  | create (uid bid : String) (due now : Nat) (lid nid : String)
      (s : LibraryState) :
      Step s (createLoan uid bid due now lid nid s).state
  | giveBack (id : String) (now : Nat) (s : LibraryState) :
      Step s (returnLoan id now s).state
  | removeUser (id rid rrole : String) (now : Nat) (s : LibraryState) :
      Step s (deleteUser id rid rrole now s).state

/-- States reachable from an initial state by loan operations. -/
inductive Reachable : LibraryState → Prop where
  | start (s : LibraryState) : InitialState s → Reachable s
  | step (s s' : LibraryState) : Reachable s → Step s s' → Reachable s'

/-- Coherence of the stored loan status with the return date, as maintained by
the loan operations: an unreturned loan stores status BORROWED and a returned
loan stores status RETURNED. -/
def StatusCoherent (s : LibraryState) : Prop :=
  ∀ l ∈ s.loans, (l.returnDate = none ∧ l.status = "BORROWED") ∨
    (l.returnDate ≠ none ∧ l.status = "RETURNED")

/-- Every copy referenced by an unreturned loan is stored with status
BORROWED. -/
def BorrowedCopies (s : LibraryState) : Prop :=
  ∀ l ∈ s.loans, l.returnDate = none →
    ∀ c ∈ s.bookCopies, c.id = l.copyId → c.status = "BORROWED"

/-- At most one loan with returnDate null references any given copy
identifier. -/
def UniqueActive (s : LibraryState) : Prop :=
  ∀ x : String, s.loans.countP (activeOn x) ≤ 1

/-- Pairwise distinctness of the copy identifiers, the MongoDB unique-index
guarantee on the id field. -/
def CopyIdsNodup (s : LibraryState) : Prop :=
  (s.bookCopies.map BookCopyDocument.id).Nodup

/-- The inductive invariant of the loan subsystem. -/
def LoanInvariant (s : LibraryState) : Prop :=
  CopyIdsNodup s ∧ StatusCoherent s ∧ BorrowedCopies s ∧ UniqueActive s

/-- Concrete sample user for exercising the operations on closed inputs. -/
def sampleUser : UserDocument :=
  { id := "u1", name := "Sam", email := "sam@lib.edu", role := "USER",
    status := "ACTIVE" }

/-- Concrete sample administrator. -/
def sampleAdmin : UserDocument :=
  { id := "a1", name := "Ada", email := "ada@lib.edu", role := "ADMIN",
    status := "ACTIVE" }

/-- Concrete sample book. -/
def sampleBook : BookDocument :=
  { id := "b1", title := "Dune", author := "Herbert", isActive := true }

/-- Concrete sample copy of the sample book, available. -/
def sampleCopy : BookCopyDocument :=
  { id := "c1", bookId := "b1", copyCode := "b1-1", status := "AVAILABLE",
    createdAt := 0, updatedAt := 0 }

/-- The sample copy once borrowed. -/
def borrowedCopy : BookCopyDocument :=
  { sampleCopy with status := "BORROWED" }

/-- Concrete active loan of the sample copy, due at time 10. -/
def sampleLoan : LoanDocument :=
  { id := "l1", userId := "u1", bookId := "b1", copyId := "c1",
    borrowDate := 0, dueDate := 10, returnDate := none, status := "BORROWED",
    reminderSent := false, reminderCount := none, lastReminderAt := none,
    createdAt := 0, updatedAt := 0 }

/-- A loan record whose returnDate is set while the stored status still reads
BORROWED; such a record is expressible in the document schema. -/
def staleLoan : LoanDocument :=
  { sampleLoan with returnDate := some 20 }

/-- The sample loan after a return at time 20. -/
def returnedLoan : LoanDocument :=
  { sampleLoan with returnDate := some 20, status := "RETURNED" }

/-- Base state: two users, one book, one available copy, no loans. -/
def sampleState : LibraryState :=
  { users := [sampleUser, sampleAdmin], books := [sampleBook],
    bookCopies := [sampleCopy], loans := [], notifications := [] }

/-- State with the sample loan active and its copy borrowed. -/
def loanState : LibraryState :=
  { sampleState with bookCopies := [borrowedCopy], loans := [sampleLoan] }

/-- State in which the sample loan has already been returned. -/
def returnedState : LibraryState :=
  { sampleState with loans := [returnedLoan] }

theorem length_updateFirst (p : α → Bool) (f : α → α) (l : List α) :
    (updateFirst p f l).length = l.length := by
  induction l with
  | nil => rfl
  | cons a as ih =>
    simp only [updateFirst]
    split <;> simp [ih]

theorem mem_updateFirst {p : α → Bool} {f : α → α} {l : List α} {b : α}
    (hb : b ∈ updateFirst p f l) :
    b ∈ l ∨ ∃ a, a ∈ l ∧ p a = true ∧ b = f a := by
  induction l with
  | nil => simp [updateFirst] at hb
  | cons a as ih =>
    by_cases hp : p a
    · rw [show updateFirst p f (a :: as) = f a :: as from by
        simp [updateFirst, hp]] at hb
      rcases List.mem_cons.mp hb with rfl | h
      · exact Or.inr ⟨a, List.mem_cons_self a as, hp, rfl⟩
      · exact Or.inl (List.mem_cons_of_mem a h)
    · rw [show updateFirst p f (a :: as) = a :: updateFirst p f as from by
        simp [updateFirst, hp]] at hb
      rcases List.mem_cons.mp hb with rfl | h
      · exact Or.inl (List.mem_cons_self b as)
      · rcases ih h with h1 | ⟨a', ha', hpa', hfa'⟩
        · exact Or.inl (List.mem_cons_of_mem a h1)
        · exact Or.inr ⟨a', List.mem_cons_of_mem a ha', hpa', hfa'⟩

theorem updateFirst_of_find?_none {p : α → Bool} {f : α → α} {l : List α}
    (h : l.find? p = none) : updateFirst p f l = l := by
  induction l with
  | nil => rfl
  | cons a as ih =>
    by_cases hp : p a
    · rw [List.find?_cons_of_pos _ hp] at h
      exact absurd h (by simp)
    · rw [List.find?_cons_of_neg _ hp] at h
      simp [updateFirst, hp, ih h]

theorem updateFirst_decomp {p : α → Bool} {f : α → α} {l : List α} {a : α}
    (hfind : l.find? p = some a) :
    ∃ l1 l2, l = l1 ++ a :: l2 ∧ (∀ b ∈ l1, ¬ p b = true) ∧ p a = true ∧
      updateFirst p f l = l1 ++ f a :: l2 := by
  induction l with
  | nil => simp at hfind
  | cons x xs ih =>
    by_cases hp : p x
    · rw [List.find?_cons_of_pos _ hp] at hfind
      obtain rfl : x = a := by injection hfind
      exact ⟨[], xs, rfl, by simp, hp, by simp [updateFirst, hp]⟩
    · rw [List.find?_cons_of_neg _ hp] at hfind
      obtain ⟨l1, l2, heq, hl1, hpa, hupd⟩ := ih hfind
      refine ⟨x :: l1, l2, by simp [heq], ?_, hpa, by simp [updateFirst, hp, hupd]⟩
      intro b hb
      rcases List.mem_cons.mp hb with rfl | hb'
      · simp [hp]
      · exact hl1 b hb'

theorem find?_append_cons {p : α → Bool} {l1 l2 : List α} {a : α}
    (hl1 : ∀ b ∈ l1, ¬ p b = true) (hpa : p a = true) :
    (l1 ++ a :: l2).find? p = some a := by
  induction l1 with
  | nil => simp [List.find?_cons_of_pos _ hpa]
  | cons y ys ih =>
    have hy : ¬ p y = true := hl1 y (by simp)
    simp only [List.cons_append, List.find?_cons_of_neg _ hy]
    exact ih (fun b hb => hl1 b (List.mem_cons_of_mem y hb))

theorem updateFirst_find? {p : α → Bool} {f : α → α} {l : List α} {a : α}
    (hfind : l.find? p = some a) (hpf : p (f a) = true) :
    (updateFirst p f l).find? p = some (f a) := by
  obtain ⟨l1, l2, _, hl1, _, hupd⟩ := updateFirst_decomp (f := f) hfind
  rw [hupd]
  exact find?_append_cons hl1 hpf

theorem map_updateFirst (g : α → β) {p : α → Bool} {f : α → α}
    (hg : ∀ a, g (f a) = g a) (l : List α) :
    (updateFirst p f l).map g = l.map g := by
  induction l with
  | nil => rfl
  | cons a as ih =>
    simp only [updateFirst]
    split <;> simp [ih, hg]

theorem updateFirst_get? {p : α → Bool} {f : α → α} (l : List α) (i : Nat) :
    (updateFirst p f l)[i]? = l[i]? ∨ (updateFirst p f l)[i]? = l[i]?.map f := by
  induction l generalizing i with
  | nil => simp [updateFirst]
  | cons a as ih =>
    simp only [updateFirst]
    split
    · cases i with
      | zero => simp
      | succ j => simp
    · cases i with
      | zero => simp
      | succ j => simpa using ih j

theorem countP_updateFirst_le (p q : α → Bool) (f : α → α)
    (hq : ∀ a, q (f a) = false) (l : List α) :
    (updateFirst p f l).countP q ≤ l.countP q := by
  induction l with
  | nil => simp [updateFirst]
  | cons a as ih =>
    simp only [updateFirst]
    split
    · rw [List.countP_cons, List.countP_cons, hq]
      simp only [Bool.false_eq_true, if_false]
      split <;> omega
    · rw [List.countP_cons, List.countP_cons]
      split <;> omega

theorem two_le_countP_of_mem {q : α → Bool} {l : List α} {a b : α}
    (ha : a ∈ l) (hb : b ∈ l) (hab : a ≠ b)
    (hqa : q a = true) (hqb : q b = true) : 2 ≤ l.countP q := by
  induction l with
  | nil => simp at ha
  | cons x xs ih =>
    rcases List.mem_cons.mp ha with rfl | ha'
    · rcases List.mem_cons.mp hb with rfl | hb'
      · exact absurd rfl hab
      · have h1 : 0 < xs.countP q := List.countP_pos_iff.mpr ⟨b, hb', hqb⟩
        rw [List.countP_cons]
        simp only [hqa, if_true]
        omega
    · rcases List.mem_cons.mp hb with rfl | hb'
      · have h1 : 0 < xs.countP q := List.countP_pos_iff.mpr ⟨a, ha', hqa⟩
        rw [List.countP_cons]
        simp only [hqb, if_true]
        omega
      · have := ih ha' hb'
        rw [List.countP_cons]
        omega

theorem nodup_key_unique {g : α → String} {l1 l2 : List α} {a : α}
    (hnd : ((l1 ++ a :: l2).map g).Nodup) :
    ∀ b, b ∈ l1 ∨ b ∈ l2 → g b ≠ g a := by
  simp only [List.map_append, List.map_cons, List.nodup_append,
    List.nodup_cons] at hnd
  intro b hb hgb
  rcases hb with hb | hb
  · have hmem : g b ∈ l1.map g := List.mem_map_of_mem g hb
    have hdisj := hnd.2.2 hmem
    exact hdisj (by rw [hgb]; exact List.mem_cons_self _ _)
  · exact hnd.2.1.1 (by rw [← hgb]; exact List.mem_map_of_mem g hb)

theorem updateFirst_eq_key {g : α → String} {f : α → α} {l : List α}
    {x : String} (hnd : (l.map g).Nodup) :
    ∀ b ∈ updateFirst (fun a => g a == x) f l, g b = x →
      ∃ a, a ∈ l ∧ b = f a := by
  induction l with
  | nil => intro b hb; simp [updateFirst] at hb
  | cons c cs ih =>
    have hnd1 : (List.map g (c :: cs)).Nodup := hnd
    rw [List.map_cons, List.nodup_cons] at hnd1
    intro b hb hbx
    by_cases hpc : g c = x
    · rw [show updateFirst (fun a => g a == x) f (c :: cs) = f c :: cs from by
        simp [updateFirst, hpc]] at hb
      rcases List.mem_cons.mp hb with rfl | hb'
      · exact ⟨c, List.mem_cons_self c cs, rfl⟩
      · exact absurd (show g c ∈ cs.map g from by
          rw [hpc, ← hbx]; exact List.mem_map_of_mem g hb') hnd1.1
    · rw [show updateFirst (fun a => g a == x) f (c :: cs) =
          c :: updateFirst (fun a => g a == x) f cs from by
        simp [updateFirst, hpc]] at hb
      rcases List.mem_cons.mp hb with rfl | hb'
      · exact absurd hbx hpc
      · obtain ⟨a, ha, rfl⟩ := ih hnd1.2 b hb' hbx
        exact ⟨a, List.mem_cons_of_mem c ha, rfl⟩

theorem map_id_freeCopies (now : Nat) (uls : List LoanDocument)
    (cs : List BookCopyDocument) :
    (freeCopies now uls cs).map BookCopyDocument.id =
      cs.map BookCopyDocument.id := by
  induction uls generalizing cs with
  | nil => rfl
  | cons l ls ih =>
    simp only [freeCopies]
    rw [ih, map_updateFirst]
    intro c
    rfl

theorem freeCopies_keep (now : Nat) (uls : List LoanDocument)
    (cs : List BookCopyDocument) (x : String)
    (h : ∀ c ∈ cs, c.id = x → c.status = "AVAILABLE") :
    ∀ c ∈ freeCopies now uls cs, c.id = x → c.status = "AVAILABLE" := by
  induction uls generalizing cs with
  | nil => simpa [freeCopies] using h
  | cons l ls ih =>
    simp only [freeCopies]
    apply ih
    intro c hc hcx
    rcases mem_updateFirst hc with hc' | ⟨a, _, _, rfl⟩
    · exact h c hc' hcx
    · rfl

theorem freeCopies_avail (now : Nat) (uls : List LoanDocument)
    (cs : List BookCopyDocument)
    (hnd : (cs.map BookCopyDocument.id).Nodup) (l : LoanDocument) :
    l ∈ uls →
      ∀ c ∈ freeCopies now uls cs, c.id = l.copyId →
        c.status = "AVAILABLE" := by
  induction uls generalizing cs with
  | nil =>
    intro hl
    simp at hl
  | cons l0 ls ih =>
    intro hl
    rcases List.mem_cons.mp hl with rfl | hl'
    · simp only [freeCopies]
      apply freeCopies_keep
      intro c hc hcx
      obtain ⟨a, _, rfl⟩ := updateFirst_eq_key hnd c hc hcx
      rfl
    · simp only [freeCopies]
      have hmap : (List.map BookCopyDocument.id
          (updateFirst (fun c => c.id == l0.copyId) (fun c =>
            { c with status := "AVAILABLE", updatedAt := now }) cs)) =
          List.map BookCopyDocument.id cs := by
        apply map_updateFirst
        intro a
        rfl
      exact ih _ (by rw [hmap]; exact hnd) hl'

theorem freeCopies_untouched (now : Nat) (uls : List LoanDocument)
    (cs : List BookCopyDocument) (x : String) :
    (∀ l ∈ uls, l.copyId ≠ x) →
      (∀ c ∈ cs, c.id = x → c.status = "BORROWED") →
      ∀ c ∈ freeCopies now uls cs, c.id = x → c.status = "BORROWED" := by
  induction uls generalizing cs with
  | nil =>
    intro _ h2
    simpa [freeCopies] using h2
  | cons l0 ls ih =>
    intro h1 h2
    simp only [freeCopies]
    apply ih _ (fun l hl => h1 l (List.mem_cons_of_mem l0 hl))
    intro c hc hcx
    rcases mem_updateFirst hc with hc' | ⟨a, _, hpa, rfl⟩
    · exact h2 c hc' hcx
    · exfalso
      have haid : a.id = l0.copyId := by simpa using hpa
      have hx : l0.copyId = x := by rw [← haid]; exact hcx
      exact h1 l0 (List.mem_cons_self l0 ls) hx

theorem invariant_createLoan (uid bid : String) (due now : Nat)
    (lid nid : String) {s : LibraryState} (h : LoanInvariant s) :
    LoanInvariant (createLoan uid bid due now lid nid s).state := by
  obtain ⟨hnd, hcoh, hbor, huniq⟩ := h
  cases hfind : s.bookCopies.find?
      (fun c => c.bookId == bid && c.status == "AVAILABLE") with
  | none =>
    simp only [createLoan, findOneAndUpdate, hfind]
    exact ⟨hnd, hcoh, hbor, huniq⟩
  | some c0 =>
    have hc0mem : c0 ∈ s.bookCopies := List.mem_of_find?_eq_some hfind
    have hc0p := List.find?_some hfind
    have hc0avail : c0.status = "AVAILABLE" := by
      have hsplit := (Bool.and_eq_true _ _).mp hc0p
      exact beq_iff_eq.mp hsplit.2
    obtain ⟨m1, m2, hceq, hm1, hpc0, hupd⟩ :=
      updateFirst_decomp
        (f := fun c => { c with status := "BORROWED", updatedAt := now }) hfind
    have hnd' : ((m1 ++ c0 :: m2).map BookCopyDocument.id).Nodup := hceq ▸ hnd
    simp only [createLoan, findOneAndUpdate, hfind]
    refine ⟨?_, ?_, ?_, ?_⟩
    · show (List.map BookCopyDocument.id _).Nodup
      have hmap : (updateFirst
          (fun c => c.bookId == bid && c.status == "AVAILABLE")
          (fun c => { c with status := "BORROWED", updatedAt := now })
          s.bookCopies).map BookCopyDocument.id =
          s.bookCopies.map BookCopyDocument.id := by
        apply map_updateFirst
        intro a
        rfl
      rw [hmap]
      exact hnd
    · intro l hl
      rw [List.mem_append] at hl
      rcases hl with hl | hl
      · exact hcoh l hl
      · rw [List.mem_singleton] at hl
        subst hl
        exact Or.inl ⟨rfl, rfl⟩
    · intro l hl hact c hc hcid
      rw [hupd] at hc
      rw [List.mem_append, List.mem_cons] at hc
      rw [List.mem_append] at hl
      have hcmem_or : c ∈ m1 ∨ c ∈ m2 → c ∈ s.bookCopies := by
        intro hor
        rw [hceq, List.mem_append, List.mem_cons]
        rcases hor with h1 | h2
        · exact Or.inl h1
        · exact Or.inr (Or.inr h2)
      rcases hl with hl | hl
      · rcases hc with hc | hc | hc
        · exact hbor l hl hact c (hcmem_or (Or.inl hc)) hcid
        · subst hc
          rfl
        · exact hbor l hl hact c (hcmem_or (Or.inr hc)) hcid
      · rw [List.mem_singleton] at hl
        subst hl
        rcases hc with hc | hc | hc
        · exact absurd hcid (nodup_key_unique hnd' c (Or.inl hc))
        · subst hc
          rfl
        · exact absurd hcid (nodup_key_unique hnd' c (Or.inr hc))
    · intro x
      rw [List.countP_append, List.countP_cons, List.countP_nil]
      by_cases hx : c0.id = x
      · have hzero : s.loans.countP (activeOn x) = 0 := by
          rw [List.countP_eq_zero]
          intro l hl hal
          rw [activeOn, Bool.and_eq_true] at hal
          have hnone : l.returnDate = none :=
            Option.isNone_iff_eq_none.mp hal.1
          have hcopy : l.copyId = x := beq_iff_eq.mp hal.2
          have hbc := hbor l hl hnone c0 hc0mem (by rw [hx, hcopy])
          rw [hc0avail] at hbc
          exact absurd hbc (by decide)
        rw [hzero]
        split <;> omega
      · have hone : activeOn x
            { id := lid, userId := uid, bookId := bid, copyId := c0.id,
              borrowDate := now, dueDate := due, returnDate := none,
              status := "BORROWED", reminderSent := false,
              reminderCount := none, lastReminderAt := none,
              createdAt := now, updatedAt := now } = false := by
          rw [activeOn]
          simp [hx]
        rw [hone]
        have := huniq x
        simp only [if_false, Bool.false_eq_true]
        omega

theorem invariant_returnLoan (id : String) (now : Nat) {s : LibraryState}
    (h : LoanInvariant s) : LoanInvariant (returnLoan id now s).state := by
  obtain ⟨hnd, hcoh, hbor, huniq⟩ := h
  cases hfind : s.loans.find? (fun l => l.id == id) with
  | none =>
    simp only [returnLoan, hfind]
    exact ⟨hnd, hcoh, hbor, huniq⟩
  | some loan =>
    by_cases hret : loan.returnDate = none
    case neg =>
      simp only [returnLoan, hfind, if_pos hret]
      exact ⟨hnd, hcoh, hbor, huniq⟩
    case pos =>
      simp only [returnLoan, hfind, if_neg (not_not_intro hret)]
      obtain ⟨L1, L2, hLeq, hL1, hploan, hLupd⟩ :=
        updateFirst_decomp
          (f := fun l => { l with
            returnDate := some now
            status := "RETURNED"
            updatedAt := now }) hfind
      refine ⟨?_, ?_, ?_, ?_⟩
      · show (List.map BookCopyDocument.id _).Nodup
        have hmap : (updateFirst (fun c => c.id == loan.copyId)
            (fun c => { c with status := "AVAILABLE", updatedAt := now })
            s.bookCopies).map BookCopyDocument.id =
            s.bookCopies.map BookCopyDocument.id := by
          apply map_updateFirst
          intro a
          rfl
        rw [hmap]
        exact hnd
      · intro l hl
        rcases mem_updateFirst hl with hl' | ⟨a, _, _, rfl⟩
        · exact hcoh l hl'
        · exact Or.inr ⟨by simp, rfl⟩
      · intro l hl hact c hc hcid
        have hlmem : l ∈ s.loans ∧ (l ∈ L1 ∨ l ∈ L2) := by
          rw [hLupd, List.mem_append, List.mem_cons] at hl
          rcases hl with hl | hl | hl
          · exact ⟨by rw [hLeq, List.mem_append]; exact Or.inl hl, Or.inl hl⟩
          · exfalso
            subst hl
            simp at hact
          · refine ⟨by
              rw [hLeq, List.mem_append, List.mem_cons]
              exact Or.inr (Or.inr hl), Or.inr hl⟩
        cases hcfind : s.bookCopies.find? (fun c => c.id == loan.copyId) with
        | none =>
          rw [updateFirst_of_find?_none hcfind] at hc
          exact hbor l hlmem.1 hact c hc hcid
        | some c1 =>
          obtain ⟨M1, M2, hMeq, hM1, hpc1, hMupd⟩ :=
            updateFirst_decomp
              (f := fun c =>
                { c with status := "AVAILABLE", updatedAt := now }) hcfind
          rw [hMupd, List.mem_append, List.mem_cons] at hc
          rcases hc with hc | hc | hc
          · exact hbor l hlmem.1 hact c
              (by rw [hMeq, List.mem_append]; exact Or.inl hc) hcid
          · exfalso
            subst hc
            have hc1id : c1.id = loan.copyId := beq_iff_eq.mp hpc1
            have hlcopy : l.copyId = loan.copyId := by
              rw [← hcid]
              exact hc1id
            have hcount : 2 ≤ s.loans.countP (activeOn loan.copyId) := by
              have hqloan : activeOn loan.copyId loan = true := by
                rw [activeOn, hret]
                simp
              have hql : activeOn loan.copyId l = true := by
                rw [activeOn, hact, hlcopy]
                simp
              have hpos : 0 < (L1 ++ L2).countP (activeOn loan.copyId) :=
                List.countP_pos_iff.mpr ⟨l, by
                  rw [List.mem_append]; exact hlmem.2, hql⟩
              rw [hLeq, List.countP_append, List.countP_cons, hqloan,
                if_pos rfl]
              rw [List.countP_append] at hpos
              omega
            have := huniq loan.copyId
            omega
          · exact hbor l hlmem.1 hact c
              (by
                rw [hMeq, List.mem_append, List.mem_cons]
                exact Or.inr (Or.inr hc)) hcid
      · intro x
        have hle : (updateFirst (fun l => l.id == id)
            (fun l => { l with
              returnDate := some now
              status := "RETURNED"
              updatedAt := now }) s.loans).countP (activeOn x) ≤
            s.loans.countP (activeOn x) := by
          apply countP_updateFirst_le
          intro a
          rw [activeOn]
          simp
        exact le_trans hle (huniq x)

theorem invariant_deleteUser (id rid rrole : String) (now : Nat)
    {s : LibraryState} (h : LoanInvariant s) :
    LoanInvariant (deleteUser id rid rrole now s).state := by
  obtain ⟨hnd, hcoh, hbor, huniq⟩ := h
  cases hfind : s.users.find? (fun u => u.id == id) with
  | none =>
    simp only [deleteUser, hfind]
    exact ⟨hnd, hcoh, hbor, huniq⟩
  | some target =>
    simp only [deleteUser, hfind]
    split
    · exact ⟨hnd, hcoh, hbor, huniq⟩
    · split
      · exact ⟨hnd, hcoh, hbor, huniq⟩
      · split
        · exact ⟨hnd, hcoh, hbor, huniq⟩
        · refine ⟨?_, ?_, ?_, ?_⟩
          · show (List.map BookCopyDocument.id _).Nodup
            rw [map_id_freeCopies]
            exact hnd
          · intro l hl
            exact hcoh l (List.mem_of_mem_filter hl)
          · intro l hl hact c hc hcid
            have hlmem : l ∈ s.loans := List.mem_of_mem_filter hl
            have hluser : l.userId ≠ id := by
              have := List.of_mem_filter hl
              simp at this
              exact this
            apply freeCopies_untouched now _ s.bookCopies l.copyId _
              (fun c2 hc2 hcid2 => hbor l hlmem hact c2 hc2 hcid2) c hc hcid
            intro l2 hl2 heq
            have hl2mem : l2 ∈ s.loans := List.mem_of_mem_filter hl2
            have hl2pred := List.of_mem_filter hl2
            rw [Bool.and_eq_true] at hl2pred
            have hl2user : l2.userId = id := beq_iff_eq.mp hl2pred.1
            have hl2status : l2.status = "BORROWED" := by
              rcases hcoh l2 hl2mem with h1 | h1
              · exact h1.2
              · exfalso
                rw [Bool.or_eq_true] at hl2pred
                rcases hl2pred.2 with h2 | h2
                · rw [h1.2] at h2
                  exact absurd (beq_iff_eq.mp h2) (by decide)
                · rw [h1.2] at h2
                  exact absurd (beq_iff_eq.mp h2) (by decide)
            have hl2act : l2.returnDate = none := by
              rcases hcoh l2 hl2mem with h1 | h1
              · exact h1.1
              · exfalso
                rw [h1.2] at hl2status
                exact absurd hl2status (by decide)
            have hne : l2 ≠ l := by
              intro hcontra
              rw [hcontra] at hl2user
              exact hluser hl2user
            have h2 : 2 ≤ s.loans.countP (activeOn l.copyId) := by
              apply two_le_countP_of_mem hl2mem hlmem hne
              · rw [activeOn, hl2act, heq]
                simp
              · rw [activeOn, hact]
                simp
            have := huniq l.copyId
            omega
          · intro x
            exact le_trans
              (List.Sublist.countP_le (activeOn x) (List.filter_sublist _))
              (huniq x)

theorem initial_invariant {s : LibraryState} (h : InitialState s) :
    LoanInvariant s := by
  obtain ⟨hloans, hnd⟩ := h
  refine ⟨hnd, ?_, ?_, ?_⟩
  · intro l hl
    rw [hloans] at hl
    simp at hl
  · intro l hl
    rw [hloans] at hl
    simp at hl
  · intro x
    rw [hloans]
    simp

theorem step_invariant {s s' : LibraryState} (h : LoanInvariant s)
    (hs : Step s s') : LoanInvariant s' := by
  cases hs with
  | create uid bid due now lid nid s => exact invariant_createLoan uid bid due now lid nid h
  | giveBack id now s => exact invariant_returnLoan id now h
  | removeUser id rid rrole now s => exact invariant_deleteUser id rid rrole now h

theorem reachable_invariant {s : LibraryState} (h : Reachable s) :
    LoanInvariant s := by
  induction h with
  | start s hs => exact initial_invariant hs
  | step s s' _ hstep ih => exact step_invariant ih hstep

/-- C1, counterexample: on a loan record whose returnDate is set but whose
stored status is BORROWED, enrichLoansWithStatus returns the stored status
rather than RETURNED, so the evaluator does not compute RETURNED for every
record with a set returnDate. -/
theorem c1_counterexample :
    staleLoan.returnDate.isSome = true ∧
    (enrichLoansWithStatus [staleLoan] 100).map LoanDocument.status ≠
      ["RETURNED"] := by
  decide

/-- C1, amended: for the loan at any position of the input list, the evaluator
passes a loan with a set returnDate through unchanged, so its effective status
is the stored status, which is RETURNED whenever the record satisfies the
documented invariant that a set returnDate stores status RETURNED; a loan with
returnDate null evaluates to OVERDUE when its dueDate is strictly before the
current time and to BORROWED otherwise. -/
theorem enrichLoansWithStatus_spec (loans : List LoanDocument) (now i : Nat)
    (l : LoanDocument) (hget : loans[i]? = some l) :
    ∃ l', (enrichLoansWithStatus loans now)[i]? = some l' ∧
      (l.returnDate.isSome = true → l' = l) ∧
      (l.returnDate = none → l.dueDate < now → l'.status = "OVERDUE") ∧
      (l.returnDate = none → ¬ l.dueDate < now → l'.status = "BORROWED") ∧
      (l.returnDate.isSome = true → l.status = "RETURNED" →
        l'.status = "RETURNED") := by
  refine ⟨(fun loan =>
      if loan.returnDate.isSome then loan
      else if loan.dueDate < now then { loan with status := "OVERDUE" }
      else { loan with status := "BORROWED" }) l, ?_, ?_, ?_, ?_, ?_⟩
  · rw [enrichLoansWithStatus, List.getElem?_map, hget]
    rfl
  · intro hsome
    simp [hsome]
  · intro hnone hlt
    simp [hnone, hlt]
  · intro hnone hnlt
    simp [hnone, hnlt]
  · intro hsome hst
    simp [hsome, hst]

/-- C1, witness: the amended statement evaluated on the sample loan, overdue
at time 100. -/
theorem c1_witness :
    ∃ l', (enrichLoansWithStatus [sampleLoan] 100)[0]? = some l' ∧
      (sampleLoan.returnDate.isSome = true → l' = sampleLoan) ∧
      (sampleLoan.returnDate = none → sampleLoan.dueDate < 100 →
        l'.status = "OVERDUE") ∧
      (sampleLoan.returnDate = none → ¬ sampleLoan.dueDate < 100 →
        l'.status = "BORROWED") ∧
      (sampleLoan.returnDate.isSome = true → sampleLoan.status = "RETURNED" →
        l'.status = "RETURNED") :=
  enrichLoansWithStatus_spec [sampleLoan] 100 0 sampleLoan rfl

/-- C2: in any state in which no copy of the requested book is AVAILABLE,
createLoan answers 400 with the message No copies available for this book and
leaves the entire state unchanged: no loan is inserted and no copy status is
modified. -/
theorem createLoan_no_available_copies (uid bid : String) (due now : Nat)
    (lid nid : String) (s : LibraryState)
    (h : ∀ c ∈ s.bookCopies, ¬(c.bookId = bid ∧ c.status = "AVAILABLE")) :
    (createLoan uid bid due now lid nid s).httpStatus = 400 ∧
    (createLoan uid bid due now lid nid s).errMessage =
      some "No copies available for this book" ∧
    (createLoan uid bid due now lid nid s).state = s := by
  have hfind : s.bookCopies.find?
      (fun c => c.bookId == bid && c.status == "AVAILABLE") = none := by
    rw [List.find?_eq_none]
    intro c hc hcontra
    rw [Bool.and_eq_true] at hcontra
    exact h c hc ⟨beq_iff_eq.mp hcontra.1, beq_iff_eq.mp hcontra.2⟩
  simp only [createLoan, findOneAndUpdate, hfind]
  exact ⟨trivial, trivial, trivial⟩

/-- C2, witness: creating a loan of the sample book while its only copy is
BORROWED fails with 400 and the state is untouched. -/
theorem c2_witness :
    (createLoan "u1" "b1" 30 5 "l9" "n9" loanState).httpStatus = 400 ∧
    (createLoan "u1" "b1" 30 5 "l9" "n9" loanState).errMessage =
      some "No copies available for this book" ∧
    (createLoan "u1" "b1" 30 5 "l9" "n9" loanState).state = loanState :=
  createLoan_no_available_copies "u1" "b1" 30 5 "l9" "n9" loanState
    (by decide)

/-- C3: returnLoan on an identifier with no matching loan answers 404 and
leaves the state unchanged, and returnLoan on a loan whose returnDate is
already set answers 400 Loan already returned and leaves the state
unchanged. -/
theorem returnLoan_guards (s : LibraryState) (id : String) (now : Nat) :
    (s.loans.find? (fun l => l.id == id) = none →
      (returnLoan id now s).httpStatus = 404 ∧
      (returnLoan id now s).state = s) ∧
    (∀ loan, s.loans.find? (fun l => l.id == id) = some loan →
      loan.returnDate ≠ none →
      (returnLoan id now s).httpStatus = 400 ∧
      (returnLoan id now s).errMessage = some "Loan already returned" ∧
      (returnLoan id now s).state = s) := by
  constructor
  · intro hfind
    simp only [returnLoan, hfind]
    exact ⟨trivial, trivial⟩
  · intro loan hfind hret
    simp only [returnLoan, hfind, if_pos hret]
    exact ⟨trivial, trivial, trivial⟩

/-- C3, witness: both guard branches exercised on the state holding the
already-returned sample loan. -/
theorem c3_witness :
    ((returnLoan "nope" 5 returnedState).httpStatus = 404 ∧
      (returnLoan "nope" 5 returnedState).state = returnedState) ∧
    ((returnLoan "l1" 5 returnedState).httpStatus = 400 ∧
      (returnLoan "l1" 5 returnedState).errMessage =
        some "Loan already returned" ∧
      (returnLoan "l1" 5 returnedState).state = returnedState) :=
  ⟨(returnLoan_guards returnedState "nope" 5).1 (by decide),
    (returnLoan_guards returnedState "l1" 5).2 returnedLoan (by decide)
      (by decide)⟩

/-- C4: a successful returnLoan on an existing unreturned loan sets that
loan's stored returnDate to the current time, hence non-null, sets its status
to RETURNED, and sets the status of every stored copy whose identifier equals
the copyId of the loan to AVAILABLE; copy identifiers are assumed pairwise
distinct, as the MongoDB unique index guarantees. -/
theorem returnLoan_success (s : LibraryState) (id : String) (now : Nat)
    (loan : LoanDocument)
    (hfind : s.loans.find? (fun l => l.id == id) = some loan)
    (hret : loan.returnDate = none)
    (hnd : (s.bookCopies.map BookCopyDocument.id).Nodup) :
    (returnLoan id now s).httpStatus = 204 ∧
    (returnLoan id now s).state.loans.find? (fun l => l.id == id) =
      some { loan with
        returnDate := some now
        status := "RETURNED"
        updatedAt := now } ∧
    ∀ c ∈ (returnLoan id now s).state.bookCopies,
      c.id = loan.copyId → c.status = "AVAILABLE" := by
  simp only [returnLoan, hfind, if_neg (not_not_intro hret)]
  refine ⟨trivial, ?_, ?_⟩
  · apply updateFirst_find? hfind
    have hpid := List.find?_some hfind
    simpa using hpid
  · intro c hc hcid
    obtain ⟨a, _, rfl⟩ := updateFirst_eq_key hnd c hc hcid
    rfl

/-- C4, witness: returning the sample loan at time 20 stamps the loan and
frees its copy. -/
theorem c4_witness :
    (returnLoan "l1" 20 loanState).httpStatus = 204 ∧
    (returnLoan "l1" 20 loanState).state.loans.find? (fun l => l.id == "l1") =
      some { sampleLoan with
        returnDate := some 20
        status := "RETURNED"
        updatedAt := 20 } ∧
    ∀ c ∈ (returnLoan "l1" 20 loanState).state.bookCopies,
      c.id = sampleLoan.copyId → c.status = "AVAILABLE" :=
  returnLoan_success loanState "l1" 20 sampleLoan (by decide) (by decide)
    (by decide)

/-- C10: sendOverdueReminder on an existing loan that is not effectively
overdue, because its returnDate is set or its dueDate is not strictly before
the current time, answers 400 Only overdue loans can receive reminders and
leaves the state, in particular the loan and notification collections,
unchanged. -/
theorem sendOverdueReminder_reject (s : LibraryState) (id : String)
    (now : Nat) (nid : String) (loan : LoanDocument)
    (hfind : s.loans.find? (fun l => l.id == id) = some loan)
    (hnot : ¬(loan.returnDate = none ∧ loan.dueDate < now)) :
    (sendOverdueReminder id now nid s).httpStatus = 400 ∧
    (sendOverdueReminder id now nid s).errMessage =
      some "Only overdue loans can receive reminders" ∧
    (sendOverdueReminder id now nid s).state = s := by
  simp only [sendOverdueReminder, hfind, if_neg hnot]
  exact ⟨trivial, trivial, trivial⟩

/-- C10, witness: a reminder for the already-returned sample loan is
rejected with 400 and no state change. -/
theorem c10_witness :
    (sendOverdueReminder "l1" 100 "n9" returnedState).httpStatus = 400 ∧
    (sendOverdueReminder "l1" 100 "n9" returnedState).errMessage =
      some "Only overdue loans can receive reminders" ∧
    (sendOverdueReminder "l1" 100 "n9" returnedState).state = returnedState :=
  sendOverdueReminder_reject returnedState "l1" 100 "n9" returnedLoan
    (by decide) (by decide)

/-- C7: a successful sendOverdueReminder on an effectively overdue loan sets
the stored reminderCount of that loan to its previous value plus one, a
missing reminderCount counting as zero, also stamps reminderSent and
lastReminderAt, and appends exactly one OVERDUE_REMINDER notification
addressed to the user of the loan. -/
theorem sendOverdueReminder_success (s : LibraryState) (id : String)
    (now : Nat) (nid : String) (loan : LoanDocument) (u : UserDocument)
    (b : BookDocument)
    (hfind : s.loans.find? (fun l => l.id == id) = some loan)
    (hret : loan.returnDate = none) (hdue : loan.dueDate < now)
    (huser : s.users.find? (fun v => v.id == loan.userId) = some u)
    (hbook : s.books.find? (fun v => v.id == loan.bookId) = some b) :
    (sendOverdueReminder id now nid s).httpStatus = 204 ∧
    (sendOverdueReminder id now nid s).state.loans.find?
      (fun l => l.id == id) = some { loan with
        reminderSent := true
        reminderCount := some (loan.reminderCount.getD 0 + 1)
        lastReminderAt := some now
        updatedAt := now } ∧
    ∃ n, (sendOverdueReminder id now nid s).state.notifications =
      s.notifications ++ [n] ∧ n.type = "OVERDUE_REMINDER" ∧
      n.userId = loan.userId ∧ n.isRead = false := by
  simp only [sendOverdueReminder, hfind, if_pos (And.intro hret hdue), huser,
    hbook]
  refine ⟨trivial, ?_, ?_⟩
  · apply updateFirst_find? hfind
    have hpid := List.find?_some hfind
    simpa using hpid
  · exact ⟨_, rfl, rfl, rfl, rfl⟩

/-- C7, witness: the first reminder for the overdue sample loan at time 100
sets reminderCount to one and appends the reminder notification. -/
theorem c7_witness :
    (sendOverdueReminder "l1" 100 "n2" loanState).httpStatus = 204 ∧
    (sendOverdueReminder "l1" 100 "n2" loanState).state.loans.find?
      (fun l => l.id == "l1") = some { sampleLoan with
        reminderSent := true
        reminderCount := some (sampleLoan.reminderCount.getD 0 + 1)
        lastReminderAt := some 100
        updatedAt := 100 } ∧
    ∃ n, (sendOverdueReminder "l1" 100 "n2" loanState).state.notifications =
      loanState.notifications ++ [n] ∧ n.type = "OVERDUE_REMINDER" ∧
      n.userId = sampleLoan.userId ∧ n.isRead = false :=
  sendOverdueReminder_success loanState "l1" 100 "n2" sampleLoan sampleUser
    sampleBook (by decide) (by decide) (by decide) (by decide) (by decide)

/-- C5: a successful deleteUser removes every loan and every notification
whose userId is the deleted user, and every stored copy referenced by an
unreturned loan of that user ends with status AVAILABLE.  The hypotheses are
the success conditions of the handler, the MongoDB uniqueness of copy
identifiers, and the stored-status coherence that the loan operations
maintain: an unreturned loan of the user stores status BORROWED or
OVERDUE. -/
theorem deleteUser_cascade (s : LibraryState) (id rid rrole : String)
    (now : Nat) (target : UserDocument)
    (hfind : s.users.find? (fun u => u.id == id) = some target)
    (hself : ¬ target.id = rid)
    (hadmin : target.role = "ADMIN" → rrole = "ADMIN")
    (hstaff : target.role = "STAFF" → rrole = "ADMIN")
    (hnd : (s.bookCopies.map BookCopyDocument.id).Nodup)
    (hcoh : ∀ l ∈ s.loans, l.userId = id → l.returnDate = none →
      l.status = "BORROWED" ∨ l.status = "OVERDUE") :
    (deleteUser id rid rrole now s).httpStatus = 204 ∧
    (∀ l ∈ (deleteUser id rid rrole now s).state.loans, l.userId ≠ id) ∧
    (∀ n ∈ (deleteUser id rid rrole now s).state.notifications,
      n.userId ≠ id) ∧
    (∀ c ∈ (deleteUser id rid rrole now s).state.bookCopies,
      ∀ l ∈ s.loans, l.userId = id → l.returnDate = none →
        c.id = l.copyId → c.status = "AVAILABLE") := by
  have h1 : ¬ (target.id == rid) = true := by simpa using hself
  have h2 : ¬ (target.role == "ADMIN" && rrole != "ADMIN") = true := by
    intro hcontra
    rw [Bool.and_eq_true] at hcontra
    have hr := hadmin (beq_iff_eq.mp hcontra.1)
    rw [bne_iff_ne] at hcontra
    exact hcontra.2 hr
  have h3 : ¬ (target.role == "STAFF" && rrole != "ADMIN") = true := by
    intro hcontra
    rw [Bool.and_eq_true] at hcontra
    have hr := hstaff (beq_iff_eq.mp hcontra.1)
    rw [bne_iff_ne] at hcontra
    exact hcontra.2 hr
  simp only [deleteUser, hfind, if_neg h1, if_neg h2, if_neg h3]
  refine ⟨trivial, ?_, ?_, ?_⟩
  · intro l hl
    have hpred := List.of_mem_filter hl
    simpa using hpred
  · intro n hn
    have hn1 := List.mem_of_mem_filter hn
    have hpred := List.of_mem_filter hn1
    simpa using hpred
  · intro c hc l hl huser hact hcid
    have hstatus := hcoh l hl huser hact
    have hlin : l ∈ s.loans.filter (fun l =>
        l.userId == id && (l.status == "BORROWED" ||
          l.status == "OVERDUE")) := by
      rw [List.mem_filter]
      refine ⟨hl, ?_⟩
      rw [Bool.and_eq_true, Bool.or_eq_true]
      refine ⟨beq_iff_eq.mpr huser, ?_⟩
      rcases hstatus with h | h
      · exact Or.inl (beq_iff_eq.mpr h)
      · exact Or.inr (beq_iff_eq.mpr h)
    exact freeCopies_avail now _ s.bookCopies hnd l hlin c hc hcid

/-- C5, witness: deleting the sample user removes the active sample loan,
leaves no notification for the user and frees the borrowed copy. -/
theorem c5_witness :
    (deleteUser "u1" "a1" "ADMIN" 50 loanState).httpStatus = 204 ∧
    (∀ l ∈ (deleteUser "u1" "a1" "ADMIN" 50 loanState).state.loans,
      l.userId ≠ "u1") ∧
    (∀ n ∈ (deleteUser "u1" "a1" "ADMIN" 50 loanState).state.notifications,
      n.userId ≠ "u1") ∧
    (∀ c ∈ (deleteUser "u1" "a1" "ADMIN" 50 loanState).state.bookCopies,
      ∀ l ∈ loanState.loans, l.userId = "u1" → l.returnDate = none →
        c.id = l.copyId → c.status = "AVAILABLE") :=
  deleteUser_cascade loanState "u1" "a1" "ADMIN" 50 sampleUser (by decide)
    (by decide) (by decide) (by decide) (by decide) (by decide)

/-- C6: in every state reachable from an initial state with an empty loan
collection by createLoan, returnLoan and deleteUser requests, at most one
loan with returnDate null references any given copy identifier. -/
theorem reachable_unique_active {s : LibraryState} (h : Reachable s)
    (x : String) : s.loans.countP (activeOn x) ≤ 1 :=
  (reachable_invariant h).2.2.2 x

/-- C6, witness: the invariant evaluated after one createLoan step from the
sample initial state. -/
theorem c6_witness :
    (createLoan "u1" "b1" 10 5 "l1" "n1" sampleState).state.loans.countP
      (activeOn "c1") ≤ 1 :=
  reachable_unique_active
    (Reachable.step sampleState _
      (Reachable.start sampleState ⟨rfl, by decide⟩)
      (Step.create "u1" "b1" 10 5 "l1" "n1" sampleState)) "c1"

/-- C8, counterexample: a reminder for the overdue sample loan succeeds with
204, yet the stored status of the loan still reads BORROWED afterwards: the
reminder write does not reconcile the persisted status field. -/
theorem c8_counterexample :
    (sendOverdueReminder "l1" 100 "n2" loanState).httpStatus = 204 ∧
    (sendOverdueReminder "l1" 100 "n2" loanState).state.loans.map
      LoanDocument.status = ["BORROWED"] := by
  decide

/-- C8, amended: sendOverdueReminder never changes the stored status field of
any loan, in any of its branches; it updates only reminderSent, reminderCount,
lastReminderAt and updatedAt.  The read paths, listing loans and the
dashboard, return recomputed data and leave the store unchanged, so the
persisted status field is never reconciled. -/
theorem sendOverdueReminder_status_frame (s : LibraryState) (id : String)
    (now : Nat) (nid : String) (i : Nat) :
    ((sendOverdueReminder id now nid s).state.loans[i]?).map
      LoanDocument.status = (s.loans[i]?).map LoanDocument.status ∧
    (getAdminLoans now s).2 = s ∧
    (getDashboardStats now s).2 = s := by
  refine ⟨?_, rfl, rfl⟩
  cases hfind : s.loans.find? (fun l => l.id == id) with
  | none => simp only [sendOverdueReminder, hfind]
  | some loan =>
    by_cases hover : loan.returnDate = none ∧ loan.dueDate < now
    · cases huser : s.users.find? (fun u => u.id == loan.userId) with
      | none =>
        cases hbook : s.books.find? (fun b => b.id == loan.bookId) with
        | none =>
          simp only [sendOverdueReminder, hfind, if_pos hover, huser, hbook]
        | some b =>
          simp only [sendOverdueReminder, hfind, if_pos hover, huser, hbook]
      | some u =>
        cases hbook : s.books.find? (fun b => b.id == loan.bookId) with
        | none =>
          simp only [sendOverdueReminder, hfind, if_pos hover, huser, hbook]
        | some b =>
          simp only [sendOverdueReminder, hfind, if_pos hover, huser, hbook]
          rcases updateFirst_get? (p := fun l => l.id == id)
              (f := fun l => { l with
                reminderSent := true
                reminderCount := some (loan.reminderCount.getD 0 + 1)
                lastReminderAt := some now
                updatedAt := now }) s.loans i with hu | hu
          · rw [hu]
          · rw [hu]
            cases s.loans[i]? with
            | none => rfl
            | some a => rfl
    · simp only [sendOverdueReminder, hfind, if_neg hover]

/-- C9: each notification update performed by markAsRead and markAllAsRead
either leaves the stored notification unchanged or replaces it by the same
document with isRead set to true; every other field is preserved at every
position of the collection. -/
theorem markRead_frame (s : LibraryState) (id uid : String) (i : Nat) :
    ((markAsRead id uid s).state.notifications[i]? = s.notifications[i]? ∨
      (markAsRead id uid s).state.notifications[i]? =
        (s.notifications[i]?).map (fun n => { n with isRead := true })) ∧
    ((markAllAsRead uid s).state.notifications[i]? = s.notifications[i]? ∨
      (markAllAsRead uid s).state.notifications[i]? =
        (s.notifications[i]?).map (fun n => { n with isRead := true })) := by
  constructor
  · exact updateFirst_get? s.notifications i
  · simp only [markAllAsRead]
    rw [List.getElem?_map]
    cases s.notifications[i]? with
    | none => simp
    | some n =>
      by_cases hn : (n.userId == uid && n.isRead == false) = true
      · right
        show some (if n.userId == uid && n.isRead == false then
            { n with isRead := true } else n) = some { n with isRead := true }
        rw [if_pos hn]
      · left
        show some (if n.userId == uid && n.isRead == false then
            { n with isRead := true } else n) = some n
        rw [if_neg hn]

end LMS
